import Mathlib

/-!
Shallow embedding of the e-commerce data pipeline backend
(`backend/server.py`): the cleaning / normalization / coercion pipeline,
the upload orchestrator, and the analytics aggregation, together with
proofs of the specification's claims about them.

Tables (pandas DataFrames) are modelled as a list of column names plus a
list of rows, each row a list of cells aligned positionally with the
columns.  A cell is a string, a numeric value (ℚ, modelling the float),
a parsed date (carrying its ISO string), or null (NaN/NaT).
-/

namespace EcommercePipeline

/-- A single cell of a table: string, numeric, parsed datetime, or null
(pandas NaN/NaT). -/
inductive Cell where
  | str : String → Cell
  | num : ℚ → Cell
  | date : String → Cell
  | null : Cell
deriving DecidableEq, Repr

/-- A table: `pandas.DataFrame` with named columns and positional rows. -/
structure DataFrame where
  cols : List String
  rows : List (List Cell)
deriving DecidableEq, Repr

/-- Well-formedness: each row has exactly one cell per column. -/
def DataFrame.WF (df : DataFrame) : Prop :=
  ∀ r ∈ df.rows, r.length = df.cols.length

instance (df : DataFrame) : Decidable df.WF := by
  unfold DataFrame.WF; infer_instance

/-! Primitive operations, defined so that they evaluate inside the
kernel (the library's `Rat.add`/`Rat.mul` are `@[irreducible]`, and the
built-in `String` functions do not reduce): rational arithmetic via
`mkRat`, byte-order string comparison, suffix test, and sorting. -/

/-- Rational multiplication (`mkRat` of the cross products). -/
def ratMul (a b : ℚ) : ℚ := mkRat (a.num * b.num) (a.den * b.den)

/-- Rational addition. -/
def ratAdd (a b : ℚ) : ℚ := mkRat (a.num * b.den + b.num * a.den) (a.den * b.den)

/-- Rational comparison `a ≤ b` as a Boolean. -/
def ratLe (a b : ℚ) : Bool := decide (a.num * b.den ≤ b.num * a.den)

/-- Sum of a list of rationals. -/
def sumQ (l : List ℚ) : ℚ := l.foldr ratAdd 0

/-- Lexicographic (codepoint) order on character lists. -/
def charListLe : List Char → List Char → Bool
  | [], _ => true
  | _ :: _, [] => false
  | a :: as, b :: bs =>
      if a.toNat = b.toNat then charListLe as bs
      else a.toNat < b.toNat

/-- Lexicographic (codepoint) string order, as used by the store's
ascending sort on date keys. -/
def strLe (a b : String) : Bool := charListLe a.toList b.toList

/-- `str.endswith(suffix)`: suffix test on strings. -/
def endsWith (s suffix : String) : Bool :=
  suffix.toList.isSuffixOf s.toList

/-- Insert into a sorted list (ordering given by a Boolean comparator). -/
def insertSorted {α : Type} (le : α → α → Bool) (a : α) : List α → List α
  | [] => [a]
  | b :: bs => if le a b then a :: b :: bs else b :: insertSorted le a bs

/-- Sort by a Boolean comparator (models the store's `$sort` stage). -/
def sortBy {α : Type} (le : α → α → Bool) : List α → List α
  | [] => []
  | a :: as => insertSorted le a (sortBy le as)

/-- A row contains a missing value (`df.isnull()` row-wise any). -/
def rowHasNull (r : List Cell) : Bool :=
  r.any (fun c => c = Cell.null)

/-- Total number of null cells in a list of rows
(`df.isnull().sum().sum()`). -/
def nullCells (rows : List (List Cell)) : Nat :=
  (rows.map (fun r => (r.filter (fun c => c = Cell.null)).length)).sum

/-- Helper for `dropDuplicates`: drop elements already seen (first
argument), threading the seen set. -/
def dropDupAux {α : Type} [DecidableEq α] : List α → List α → List α
  | _, [] => []
  | seen, x :: xs =>
      if x ∈ seen then dropDupAux seen xs
      else x :: dropDupAux (x :: seen) xs

/-- `DataFrame.drop_duplicates()`: remove exact full-row duplicates,
keeping the first occurrence of each row, preserving order. -/
def dropDuplicates {α : Type} [DecidableEq α] (l : List α) : List α :=
  dropDupAux [] l

/-- `clean_dataframe(df)`: drop exact duplicate rows, then drop rows with
any missing value, accumulating human-readable diagnostics.  Mirrors
`backend/server.py:69`. -/
def clean_dataframe (df : DataFrame) : DataFrame × List String :=
  let original_count := df.rows.length
  let rows1 := dropDuplicates df.rows
  let duplicates_removed := original_count - rows1.length
  let errs1 := if duplicates_removed > 0 then
      [s!"Removed {duplicates_removed} duplicate records"] else []
  let missing_before := nullCells rows1
  let rows2 := rows1.filter (fun r => ¬ rowHasNull r)
  let missing_removed := missing_before - nullCells rows2
  let survivors := rows2.length
  let errs2 := if missing_removed > 0 then
      [s!"Removed {survivors} records with missing values"] else []
  (⟨df.cols, rows2⟩, errs1 ++ errs2)

/-- Column-name normalization: lower-case, strip spaces and underscores
(`df.columns.str.lower().str.replace(' ', '').str.replace('_', '')`). -/
def normalizeColName (s : String) : String :=
  ⟨(s.toList.map Char.toLower).filter (fun c => decide (c ≠ ' ') && decide (c ≠ '_'))⟩

/-- The fixed synonym table mapping normalized source column names to
canonical names (`column_mappings` in `standardize_schema`). -/
def column_mappings : List (String × String) := [
  ("invoiceno", "order_id"),
  ("invoice", "order_id"),
  ("orderid", "order_id"),
  ("stockcode", "product_id"),
  ("productid", "product_id"),
  ("sku", "product_id"),
  ("description", "product_name"),
  ("productname", "product_name"),
  ("product", "product_name"),
  ("quantity", "quantity"),
  ("qty", "quantity"),
  ("unitprice", "unit_price"),
  ("price", "unit_price"),
  ("customerid", "customer_id"),
  ("customer", "customer_id"),
  ("invoicedate", "order_date"),
  ("date", "order_date"),
  ("orderdate", "order_date"),
  ("country", "country")]

/-- `df.rename(columns=column_mappings)`: map a column name through the
synonym table, leaving unrecognized names unchanged. -/
def mapColumn (s : String) : String :=
  (column_mappings.lookup s).getD s

def required_columns : List String :=
  ["order_id", "product_id", "quantity", "unit_price"]

/-- Numeric value of a digit string (most significant first). -/
def digitsVal (cs : List Char) : Nat :=
  cs.foldl (fun n c => n * 10 + (c.toNat - '0'.toNat)) 0

/-- Decimal-literal parsing, modelling `pd.to_numeric` on a string value:
optional sign, digits, optional fractional part.  Anything else fails. -/
def parseNumeric (s : String) : Option ℚ :=
  let cs := s.toList
  let signed : Bool × List Char :=
    match cs with
    | '-' :: rest => (true, rest)
    | '+' :: rest => (false, rest)
    | _ => (false, cs)
  let intPart := signed.2.takeWhile Char.isDigit
  let rest := signed.2.dropWhile Char.isDigit
  let mag : Option ℚ :=
    match rest with
    | [] => if intPart = [] then none else some (mkRat (digitsVal intPart) 1)
    | '.' :: frac =>
        if intPart = [] ∧ frac = [] then none
        else if frac.all Char.isDigit then
          some (mkRat (digitsVal (intPart ++ frac)) (10 ^ frac.length))
        else none
    | _ => none
  mag.map (fun q => if signed.1 then -q else q)

/-- `pd.to_numeric(col, errors='coerce')` on one cell: numbers pass
through, parseable strings become numbers, anything else becomes null. -/
def coerceNumericCell (c : Cell) : Cell :=
  match c with
  | .num q => .num q
  | .str s =>
      match parseNumeric s with
      | some q => .num q
      | none => .null
  | _ => .null

/-- A free-form string accepted by the date parser: a `YYYY-MM-DD` shaped
prefix.  Models which inputs `pd.to_datetime(errors='coerce')` accepts. -/
def validDateString (s : String) : Bool :=
  match s.toList with
  | y1 :: y2 :: y3 :: y4 :: '-' :: m1 :: m2 :: '-' :: d1 :: d2 :: _ =>
      [y1, y2, y3, y4, m1, m2, d1, d2].all Char.isDigit
  | _ => false

/-- `pd.to_datetime(col, errors='coerce')` on one cell: unparseable
values become null (NaT), parsed values carry their ISO string. -/
def coerceDateCell (c : Cell) : Cell :=
  match c with
  | .str s => if validDateString s then .date s else .null
  | .date s => .date s
  | _ => .null

/-- Value of the column named `col` in row `r` (null when absent). -/
def getCell (cols : List String) (col : String) (r : List Cell) : Cell :=
  ((cols.zip r).lookup col).getD Cell.null

/-- Apply `f` to the cells of the column named `col`, leaving the other
positions of the row unchanged (`df[col] = f(df[col])` row-wise). -/
def applyAt (cols : List String) (col : String) (f : Cell → Cell)
    (r : List Cell) : List Cell :=
  (cols.zip r).map (fun p => if p.1 = col then f p.2 else p.2)

/-- Numeric cell multiplication; null (NaN) propagates. -/
def cellMul : Cell → Cell → Cell
  | .num a, .num b => .num (ratMul a b)
  | _, _ => .null

/-- `standardize_schema(df)`: normalize and rename columns, check the
required canonical columns, coerce `quantity`/`unit_price` to numeric,
derive `total_price` when absent, parse `order_date`.  Mirrors
`backend/server.py:89`.  When required columns are missing the table is
returned unchanged (rows intact) with a diagnostic.  The source wraps
coercion in try/except; in this pure model coercion cannot raise, so
that branch contributes no diagnostic. -/
def standardize_schema (df : DataFrame) : DataFrame × List String :=
  let cols1 := df.cols.map (fun c => mapColumn (normalizeColName c))
  let missing_columns := required_columns.filter (fun c => ¬ cols1.contains c)
  if missing_columns ≠ [] then
    (⟨cols1, df.rows⟩, [s!"Missing required columns: {missing_columns}"])
  else
    let rows1 := df.rows.map (fun r => applyAt cols1 "quantity" coerceNumericCell r)
    let rows2 := rows1.map (fun r => applyAt cols1 "unit_price" coerceNumericCell r)
    let withTotal : List String × List (List Cell) :=
      if cols1.contains "total_price" then (cols1, rows2)
      else (cols1 ++ ["total_price"],
        rows2.map (fun r =>
          r ++ [cellMul (getCell cols1 "quantity" r) (getCell cols1 "unit_price" r)]))
    let rows4 := if withTotal.1.contains "order_date" then
        withTotal.2.map (fun r => applyAt withTotal.1 "order_date" coerceDateCell r)
      else withTotal.2
    (⟨withTotal.1, rows4⟩, [])

/-- The `ProcessingLog` model persisted to `db.processing_logs`
(identifier, timestamp and wall-clock time are not modelled). -/
structure ProcessingLog where
  filename : String
  status : String
  records_processed : Int
  records_failed : Int
  errors : List String
deriving DecidableEq, Repr

/-- The JSON body returned by a successful upload. -/
structure UploadResponse where
  message : String
  records_processed : Int
  records_failed : Int
  errors : List String
deriving DecidableEq, Repr

/-- An `HTTPException`: status code and detail message. -/
structure HttpError where
  status : Nat
  detail : String
deriving DecidableEq, Repr

instance {ε α : Type} [DecidableEq ε] [DecidableEq α] :
    DecidableEq (Except ε α) := fun a b =>
  match a, b with
  | .error e, .error f =>
      if h : e = f then .isTrue (by rw [h]) else .isFalse (by simp [h])
  | .ok x, .ok y =>
      if h : x = y then .isTrue (by rw [h]) else .isFalse (by simp [h])
  | .error _, .ok _ => .isFalse (by simp)
  | .ok _, .error _ => .isFalse (by simp)

/-- Outcome of one call to the upload endpoint: the HTTP response, the
records inserted into `db.ecommerce_data`, and the log entries inserted
into `db.processing_logs`. -/
structure UploadResult where
  response : Except HttpError UploadResponse
  storedData : List (List (String × Cell))
  storedLogs : List ProcessingLog
deriving DecidableEq, Repr

/-- Serialization applied by `store_processed_data`: a parsed datetime is
stored as its ISO string; other values pass through. -/
def serializeCell : Cell → Cell
  | .date s => .str s
  | c => c

/-- `df.to_dict('records')` plus metadata tagging in
`store_processed_data`: each row becomes a name/value record tagged with
its source file (the fresh `_id` and `processed_at` are not modelled). -/
def toRecords (df : DataFrame) (filename : String) : List (List (String × Cell)) :=
  df.rows.map (fun r =>
    (df.cols.zip r).map (fun p => (p.1, serializeCell p.2))
      ++ [("source_file", Cell.str filename)])

/-- The body of `upload_file`'s try-block on a successfully parsed
table: clean, standardize, store, and record the completed outcome. -/
def process_upload (df : DataFrame) (filename : String) : UploadResult :=
  let original_count := df.rows.length
  let cleaned := clean_dataframe df
  let standardized := standardize_schema cleaned.1
  let all_errors := cleaned.2 ++ standardized.2
  let records := toRecords standardized.1 filename
  let records_stored : Int := records.length
  let records_failed : Int := original_count - records_stored
  { response := .ok { message := "File processed successfully",
                      records_processed := records_stored,
                      records_failed := records_failed,
                      errors := all_errors },
    storedData := records,
    storedLogs := [{ filename := filename, status := "completed",
                     records_processed := records_stored,
                     records_failed := records_failed,
                     errors := all_errors }] }

/-- The except-branch of `upload_file` on a decode/parse failure:
persist a failed outcome and re-raise a 500 server error. -/
def failed_upload (e : String) (filename : String) : UploadResult :=
  { response := .error ⟨500, s!"Error processing file: {e}"⟩,
    storedData := [],
    storedLogs := [{ filename := filename, status := "failed",
                     records_processed := 0, records_failed := 0,
                     errors := [e] }] }

/-- `upload_file`: the upload endpoint (`backend/server.py:176`).  The
CSV byte content is abstracted as `parsed`: the result of UTF-8 decoding
plus `pd.read_csv`, either a table or an exception message. -/
def upload_file (filename : String) (parsed : Except String DataFrame) :
    UploadResult :=
  if ¬ endsWith filename ".csv" then
    { response := .error ⟨400, "Only CSV files are supported"⟩,
      storedData := [],
      storedLogs := [] }
  else
    match parsed with
    | .error e => failed_upload e filename
    | .ok df => process_upload df filename

/-- A record persisted in `db.ecommerce_data`. -/
abbrev StoredRecord := List (String × Cell)

/-- Field access on a stored document (null when absent). -/
def getField (r : StoredRecord) (name : String) : Cell :=
  (r.lookup name).getD Cell.null

/-- Mongo `$sum` semantics: non-numeric and missing values count as 0. -/
def toNumD : Cell → ℚ
  | .num q => q
  | _ => 0

/-- One entry of the `top_products` list. -/
structure TopProduct where
  product_id : Cell
  product_name : Cell
  total_quantity : ℚ
  total_revenue : ℚ
  order_count : Nat
deriving DecidableEq, Repr

/-- One entry of the `top_customers` list. -/
structure TopCustomer where
  customer_id : Cell
  total_spent : ℚ
  order_count : Nat
deriving DecidableEq, Repr

/-- One entry of the `daily_revenue` list. -/
structure DailyRevenue where
  date : String
  revenue : ℚ
  orders : Nat
deriving DecidableEq, Repr

/-- Grouping key of the top-products pipeline. -/
def productKey (r : StoredRecord) : Cell × Cell :=
  (getField r "product_id", getField r "product_name")

/-- The `top_products` aggregation pipeline: group by
`(product_id, product_name)`, sum quantity and revenue, count records,
sort by revenue descending, limit 5. -/
def top_products (store : List StoredRecord) : List TopProduct :=
  let keys := dropDuplicates (store.map productKey)
  let aggs := keys.map (fun k =>
    let grp := store.filter (fun r => productKey r = k)
    { product_id := k.1, product_name := k.2,
      total_quantity := sumQ (grp.map (fun r => toNumD (getField r "quantity"))),
      total_revenue := sumQ (grp.map (fun r => toNumD (getField r "total_price"))),
      order_count := grp.length })
  (sortBy (fun a b => ratLe b.total_revenue a.total_revenue) aggs).take 5

/-- The `top_customers` aggregation pipeline: group by `customer_id`,
sum spend, count records, sort by spend descending, limit 5. -/
def top_customers (store : List StoredRecord) : List TopCustomer :=
  let keys := dropDuplicates (store.map (fun r => getField r "customer_id"))
  let aggs := keys.map (fun k =>
    let grp := store.filter (fun r => getField r "customer_id" = k)
    { customer_id := k,
      total_spent := sumQ (grp.map (fun r => toNumD (getField r "total_price"))),
      order_count := grp.length })
  (sortBy (fun a b => ratLe b.total_spent a.total_spent) aggs).take 5

/-- Calendar-date key of the daily-revenue pipeline: the stored date
string re-parsed and formatted `%Y-%m-%d` — the first ten characters of
the ISO string.  (The model assumes the stored date strings parse.) -/
def dayKey (r : StoredRecord) : String :=
  match getField r "order_date" with
  | .str s => s.take 10
  | .date s => s.take 10
  | _ => ""

/-- The `daily_revenue` aggregation pipeline: group by calendar date,
sum revenue, count orders, sort by date ascending, limit 30. -/
def daily_revenue (store : List StoredRecord) : List DailyRevenue :=
  let keys := dropDuplicates (store.map dayKey)
  let aggs := keys.map (fun k =>
    let grp := store.filter (fun r => dayKey r = k)
    { date := k,
      revenue := sumQ (grp.map (fun r => toNumD (getField r "total_price"))),
      orders := grp.length })
  (sortBy (fun a b => strLe a.date b.date) aggs).take 30

/-- The non-empty analytics payload (`DataStats`). -/
structure DataStats where
  total_records : Nat
  total_revenue : ℚ
  unique_customers : Nat
  unique_products : Nat
  date_range_start : String
  date_range_end : String
  top_products : List TopProduct
  top_customers : List TopCustomer
  daily_revenue : List DailyRevenue
deriving DecidableEq, Repr

/-- The minimal payload returned when the store is empty. -/
structure EmptyOverview where
  total_records : Nat
  message : String
deriving DecidableEq, Repr

/-- Result of the analytics endpoint: either the empty-state payload or
the full statistics payload. -/
inductive AnalyticsOverview where
  | empty : EmptyOverview → AnalyticsOverview
  | full : DataStats → AnalyticsOverview
deriving DecidableEq, Repr

/-- Stored `order_date` strings present in the store (for `$min`/`$max`
of the date range, which ignore missing values). -/
def dateStrings (store : List StoredRecord) : List String :=
  store.filterMap (fun r =>
    match getField r "order_date" with
    | .str s => some s
    | .date s => some s
    | _ => none)

/-- `get_analytics_overview` (`backend/server.py:238`): empty-state
payload on an empty store, otherwise the aggregated statistics. -/
def get_analytics_overview (store : List StoredRecord) : AnalyticsOverview :=
  let total_records := store.length
  if total_records = 0 then
    .empty ⟨0, "No data available. Please upload a CSV file first."⟩
  else
    let sortedDates := sortBy strLe (dateStrings store)
    .full { total_records := total_records,
            total_revenue := sumQ (store.map (fun r => toNumD (getField r "total_price"))),
            unique_customers :=
              (dropDuplicates (store.map (fun r => getField r "customer_id"))).length,
            unique_products :=
              (dropDuplicates (store.map (fun r => getField r "product_id"))).length,
            date_range_start := sortedDates.head?.getD "",
            date_range_end := sortedDates.getLast?.getD "",
            top_products := top_products store,
            top_customers := top_customers store,
            daily_revenue := daily_revenue store }

/-- The two collections of the record store. -/
structure StoreState where
  ecommerce_data : List StoredRecord
  processing_logs : List ProcessingLog
deriving DecidableEq, Repr

/-- `clear_all_data` (`backend/server.py:366`): empty both collections
and return the confirmation message. -/
def clear_all_data (_s : StoreState) : StoreState × String :=
  (⟨[], []⟩, "All data cleared successfully")

/-! ### Branch elimination for the upload endpoint -/

theorem upload_file_ok {fn : String} (df : DataFrame)
    (hfn : endsWith fn ".csv" = true) :
    upload_file fn (.ok df) = process_upload df fn := by
  unfold upload_file
  rw [if_neg (fun hc => hc hfn)]

theorem upload_file_err {fn : String} (e : String)
    (hfn : endsWith fn ".csv" = true) :
    upload_file fn (.error e) = failed_upload e fn := by
  unfold upload_file
  rw [if_neg (fun hc => hc hfn)]

/-! ### Lemmas about the cleaning stage -/

theorem dropDupAux_cons {α : Type} [DecidableEq α] (seen : List α) (x : α)
    (xs : List α) :
    dropDupAux seen (x :: xs)
      = if x ∈ seen then dropDupAux seen xs
        else x :: dropDupAux (x :: seen) xs := rfl

theorem dropDupAux_congr {α : Type} [DecidableEq α] {s1 s2 : List α}
    (h : ∀ a, a ∈ s1 ↔ a ∈ s2) :
    ∀ (l : List α), dropDupAux s1 l = dropDupAux s2 l
  | [] => rfl
  | x :: xs => by
    rw [dropDupAux_cons, dropDupAux_cons]
    by_cases hx : x ∈ s1
    · rw [if_pos hx, if_pos ((h x).mp hx), dropDupAux_congr h xs]
    · rw [if_neg hx, if_neg (fun hc => hx ((h x).mpr hc))]
      have h2 : ∀ a, a ∈ x :: s1 ↔ a ∈ x :: s2 := by
        intro a
        simp [List.mem_cons, h a]
      rw [dropDupAux_congr h2 xs]

theorem dropDupAux_filter {α : Type} [DecidableEq α] (x : α) :
    ∀ (l : List α) (s : List α),
      dropDupAux (x :: s) l = dropDupAux s (l.filter (fun a => a ≠ x))
  | [], s => rfl
  | a :: l, s => by
    rw [List.filter_cons]
    by_cases hax : a = x
    · subst hax
      rw [if_neg (by simp)]
      rw [dropDupAux_cons, if_pos (List.mem_cons_self a s), dropDupAux_filter a l s]
    · rw [if_pos (by simpa using hax)]
      rw [dropDupAux_cons, dropDupAux_cons]
      by_cases has : a ∈ s
      · rw [if_pos (List.mem_cons_of_mem x has), if_pos has,
          dropDupAux_filter x l s]
      · have hnot : a ∉ x :: s := by
          simp [List.mem_cons, hax, has]
        rw [if_neg hnot, if_neg has]
        have hswap : ∀ b, b ∈ a :: x :: s ↔ b ∈ x :: a :: s := by
          intro b
          simp only [List.mem_cons]
          tauto
        rw [dropDupAux_congr hswap l, dropDupAux_filter x l (a :: s)]

theorem dropDuplicates_nil {α : Type} [DecidableEq α] :
    dropDuplicates ([] : List α) = [] := rfl

theorem dropDuplicates_cons {α : Type} [DecidableEq α] (r : α) (rs : List α) :
    dropDuplicates (r :: rs)
      = r :: dropDuplicates (rs.filter (fun x => x ≠ r)) := by
  show dropDupAux [] (r :: rs) = r :: dropDupAux [] (rs.filter (fun x => x ≠ r))
  rw [dropDupAux_cons, if_neg (List.not_mem_nil r), dropDupAux_filter r rs []]

theorem mem_dropDuplicates {α : Type} [DecidableEq α] {a : α} :
    ∀ {l : List α}, a ∈ dropDuplicates l ↔ a ∈ l
  | [] => by rw [dropDuplicates_nil]
  | r :: rs => by
    rw [dropDuplicates_cons]
    simp only [List.mem_cons, mem_dropDuplicates (l := rs.filter (fun x => x ≠ r)),
      List.mem_filter, decide_eq_true_eq]
    constructor
    · rintro (rfl | ⟨h1, _⟩)
      · exact Or.inl rfl
      · exact Or.inr h1
    · rintro (rfl | h1)
      · exact Or.inl rfl
      · by_cases hr : a = r
        · exact Or.inl hr
        · exact Or.inr ⟨h1, hr⟩
termination_by l => l.length
decreasing_by
  all_goals
    simp only [List.length_cons]
    exact Nat.lt_succ_of_le (List.length_filter_le _ _)

theorem dropDuplicates_filter {α : Type} [DecidableEq α] (p : α → Bool) :
    ∀ (l : List α), (dropDuplicates l).filter p = dropDuplicates (l.filter p)
  | [] => by simp [dropDuplicates_nil]
  | r :: rs => by
    by_cases hp : p r = true
    · rw [dropDuplicates_cons, List.filter_cons, if_pos hp, List.filter_cons, if_pos hp,
        dropDuplicates_cons, dropDuplicates_filter p (rs.filter (fun x => x ≠ r)),
        List.filter_filter, List.filter_filter]
      have he : List.filter (fun a => p a && decide (a ≠ r)) rs
          = List.filter (fun a => decide (a ≠ r) && p a) rs :=
        List.filter_congr (fun a _ => Bool.and_comm _ _)
      rw [he]
    · rw [dropDuplicates_cons, List.filter_cons, if_neg hp, List.filter_cons, if_neg hp,
        dropDuplicates_filter p (rs.filter (fun x => x ≠ r)), List.filter_filter]
      have he : List.filter (fun a => p a && decide (a ≠ r)) rs = List.filter p rs := by
        apply List.filter_congr
        intro a _
        by_cases hpa : p a = true
        · have hne : a ≠ r := fun h => hp (h ▸ hpa)
          simp [hpa, hne]
        · simp [Bool.eq_false_iff.mpr hpa]
      rw [he]
termination_by l => l.length
decreasing_by
  all_goals
    simp only [List.length_cons]
    exact Nat.lt_succ_of_le (List.length_filter_le _ _)

theorem rowHasNull_iff {r : List Cell} :
    rowHasNull r = true ↔ 0 < (r.filter (fun c => c = Cell.null)).length := by
  rw [List.length_pos]
  simp only [rowHasNull, List.any_eq_true, decide_eq_true_eq, Ne,
    List.filter_eq_nil_iff, decide_eq_true_eq, not_forall]
  constructor
  · rintro ⟨c, hc, hnull⟩
    exact ⟨c, hc, by simp [hnull]⟩
  · rintro ⟨c, hc, hnull⟩
    refine ⟨c, hc, ?_⟩
    simpa using hnull

theorem nullCells_pos_iff {l : List (List Cell)} :
    0 < nullCells l ↔ l.any rowHasNull = true := by
  induction l with
  | nil => simp [nullCells]
  | cons r rs ih =>
    have hcons : nullCells (r :: rs)
        = (r.filter (fun c => c = Cell.null)).length + nullCells rs := by
      simp [nullCells]
    rw [hcons, List.any_cons, Bool.or_eq_true, rowHasNull_iff, ← ih]
    omega

theorem nullCells_filter_eq_zero (l : List (List Cell)) :
    nullCells (l.filter (fun r => ¬ rowHasNull r)) = 0 := by
  unfold nullCells
  apply List.sum_eq_zero
  intro n hn
  simp only [List.mem_map, List.mem_filter, decide_eq_true_eq] at hn
  obtain ⟨r, ⟨_, hr⟩, rfl⟩ := hn
  have hz : ¬ 0 < (r.filter (fun c => c = Cell.null)).length := by
    rw [← rowHasNull_iff]
    simp [hr]
  omega

/-! ### Lemmas about the schema stage -/

theorem applyAt_nil (cols : List String) (col : String) (f : Cell → Cell) :
    applyAt cols col f [] = [] := by
  simp [applyAt]

theorem applyAt_cons (c0 : String) (cs : List String) (col : String)
    (f : Cell → Cell) (x : Cell) (xs : List Cell) :
    applyAt (c0 :: cs) col f (x :: xs)
      = (if c0 = col then f x else x) :: applyAt cs col f xs := by
  simp [applyAt]

theorem length_applyAt (cols : List String) (col : String) (f : Cell → Cell)
    (r : List Cell) (h : r.length = cols.length) :
    (applyAt cols col f r).length = r.length := by
  simp [applyAt, List.length_zip, h]

theorem mem_zip_applyAt :
    ∀ (cols : List String) (r : List Cell) (col : String) (f : Cell → Cell)
      (c : String) (v : Cell),
      (c, v) ∈ cols.zip (applyAt cols col f r) → c = col ∨ (c, v) ∈ cols.zip r
  | [], r, col, f, c, v => by simp [applyAt]
  | c0 :: cs, [], col, f, c, v => by simp [applyAt]
  | c0 :: cs, x :: xs, col, f, c, v => by
    rw [applyAt_cons]
    simp only [List.zip_cons_cons, List.mem_cons, Prod.mk.injEq]
    rintro (⟨rfl, rfl⟩ | h)
    · by_cases h0 : c = col
      · exact Or.inl h0
      · rw [if_neg h0]
        exact Or.inr (Or.inl ⟨rfl, rfl⟩)
    · rcases mem_zip_applyAt cs xs col f c v h with h1 | h1
      · exact Or.inl h1
      · exact Or.inr (Or.inr h1)

theorem lookup_zip_of_not_mem {cols : List String} {r : List Cell} {c : String}
    (h : c ∉ cols) : (cols.zip r).lookup c = none := by
  rw [List.lookup_eq_none_iff]
  rintro ⟨a, b⟩ hp
  have hmem := List.of_mem_zip hp
  have : c ≠ a := by
    rintro rfl; exact h hmem.1
  simpa using this

theorem getCell_applyAt_ne :
    ∀ (cols : List String) (r : List Cell) (col c : String) (f : Cell → Cell),
      c ≠ col → getCell cols c (applyAt cols col f r) = getCell cols c r
  | [], r, col, c, f, h => by simp [applyAt, getCell]
  | c0 :: cs, [], col, c, f, h => by simp [applyAt, getCell]
  | c0 :: cs, x :: xs, col, c, f, h => by
    rw [applyAt_cons]
    unfold getCell
    simp only [List.zip_cons_cons, List.lookup_cons]
    by_cases hc : c = c0
    · subst hc
      rw [if_neg h]
      simp
    · have hbeq : (c == c0) = false := by simpa using hc
      rw [hbeq]
      exact getCell_applyAt_ne cs xs col c f h

theorem getCell_append_last (cols : List String) (t : String) (r : List Cell)
    (v : Cell) (hlen : cols.length = r.length) (h : t ∉ cols) :
    getCell (cols ++ [t]) t (r ++ [v]) = v := by
  unfold getCell
  rw [List.zip_append hlen, List.lookup_append, lookup_zip_of_not_mem h]
  simp [List.lookup]

theorem getCell_append_ne (cols : List String) (t c : String) (r : List Cell)
    (v : Cell) (hlen : cols.length = r.length) (h : c ≠ t) :
    getCell (cols ++ [t]) c (r ++ [v]) = getCell cols c r := by
  unfold getCell
  rw [List.zip_append hlen, List.lookup_append]
  cases hl : (cols.zip r).lookup c with
  | some w => simp [hl]
  | none =>
      have hbeq : (c == t) = false := by simpa using h
      simp [hl, List.lookup, hbeq]

theorem serializeCell_eq_null {c : Cell} :
    serializeCell c = Cell.null ↔ c = Cell.null := by
  cases c <;> simp [serializeCell]

theorem serializeCell_cellMul (a b : Cell) :
    serializeCell (cellMul a b) = cellMul (serializeCell a) (serializeCell b) := by
  cases a <;> cases b <;> simp [serializeCell, cellMul]

theorem lookup_map_value {α β γ : Type} [BEq α] (g : β → γ) (c : α) :
    ∀ (l : List (α × β)),
      (l.map (fun p => (p.1, g p.2))).lookup c = (l.lookup c).map g
  | [] => rfl
  | (a, b) :: l => by
    simp only [List.map_cons, List.lookup_cons]
    cases c == a <;> simp [lookup_map_value g c l]

theorem getField_record (cols : List String) (r : List Cell) (fn c : String)
    (h : c ≠ "source_file") :
    getField ((cols.zip r).map (fun p => (p.1, serializeCell p.2))
        ++ [("source_file", Cell.str fn)]) c
      = serializeCell (getCell cols c r) := by
  unfold getField getCell
  rw [List.lookup_append, lookup_map_value]
  cases hl : (cols.zip r).lookup c with
  | some w => simp [hl]
  | none =>
      have hbeq : (c == "source_file") = false := by simpa using h
      simp [hl, List.lookup, hbeq, serializeCell]

/-! ### Lemmas about ordering and sorting -/

theorem ratLe_iff {a b : ℚ} : ratLe a b = true ↔ a ≤ b := by
  rw [ratLe, decide_eq_true_eq, Rat.le_def]

theorem ratLe_trans {a b c : ℚ} (h1 : ratLe a b = true)
    (h2 : ratLe b c = true) : ratLe a c = true :=
  ratLe_iff.mpr (le_trans (ratLe_iff.mp h1) (ratLe_iff.mp h2))

theorem ratLe_total (a b : ℚ) : ratLe a b = true ∨ ratLe b a = true := by
  rcases le_total a b with h | h
  · exact Or.inl (ratLe_iff.mpr h)
  · exact Or.inr (ratLe_iff.mpr h)

theorem charListLe_total :
    ∀ (a b : List Char), charListLe a b = true ∨ charListLe b a = true
  | [], _ => Or.inl rfl
  | _ :: _, [] => Or.inr rfl
  | a :: as, b :: bs => by
    by_cases h : a.toNat = b.toNat
    · rw [charListLe, if_pos h, charListLe, if_pos h.symm]
      exact charListLe_total as bs
    · rw [charListLe, if_neg h, charListLe, if_neg (fun hc => h hc.symm)]
      rcases Nat.lt_or_gt_of_ne h with hlt | hgt
      · exact Or.inl (by simpa using hlt)
      · exact Or.inr (by simpa using hgt)

theorem charListLe_trans :
    ∀ (a b c : List Char), charListLe a b = true → charListLe b c = true →
      charListLe a c = true
  | [], _, _, _, _ => rfl
  | _ :: _, [], _, h1, _ => by simp [charListLe] at h1
  | _ :: _, _ :: _, [], _, h2 => by simp [charListLe] at h2
  | a :: as, b :: bs, c :: cs, h1, h2 => by
    by_cases hab : a.toNat = b.toNat <;> by_cases hbc : b.toNat = c.toNat
    · rw [charListLe, if_pos hab] at h1
      rw [charListLe, if_pos hbc] at h2
      rw [charListLe, if_pos (hab.trans hbc)]
      exact charListLe_trans as bs cs h1 h2
    · rw [charListLe, if_pos hab] at h1
      rw [charListLe, if_neg hbc] at h2
      have hlt : a.toNat < c.toNat := hab ▸ (by simpa using h2)
      rw [charListLe, if_neg (Nat.ne_of_lt hlt)]
      simpa using hlt
    · rw [charListLe, if_neg hab] at h1
      rw [charListLe, if_pos hbc] at h2
      have hlt : a.toNat < c.toNat := hbc ▸ (by simpa using h1)
      rw [charListLe, if_neg (Nat.ne_of_lt hlt)]
      simpa using hlt
    · rw [charListLe, if_neg hab] at h1
      rw [charListLe, if_neg hbc] at h2
      have hlt : a.toNat < c.toNat :=
        Nat.lt_trans (by simpa using h1) (by simpa using h2)
      rw [charListLe, if_neg (Nat.ne_of_lt hlt)]
      simpa using hlt

theorem strLe_trans {a b c : String} (h1 : strLe a b = true)
    (h2 : strLe b c = true) : strLe a c = true :=
  charListLe_trans _ _ _ h1 h2

theorem strLe_total (a b : String) : strLe a b = true ∨ strLe b a = true :=
  charListLe_total _ _

theorem mem_insertSorted {α : Type} (le : α → α → Bool) (a x : α) :
    ∀ (l : List α), x ∈ insertSorted le a l ↔ x = a ∨ x ∈ l
  | [] => by simp [insertSorted]
  | b :: bs => by
    rw [insertSorted]
    by_cases h : le a b = true
    · rw [if_pos h]
      simp [List.mem_cons]
    · rw [if_neg h]
      simp only [List.mem_cons, mem_insertSorted le a x bs]
      tauto

theorem pairwise_insertSorted {α : Type} (le : α → α → Bool)
    (htrans : ∀ a b c, le a b = true → le b c = true → le a c = true)
    (htot : ∀ a b, le a b = true ∨ le b a = true) (a : α) :
    ∀ (l : List α), l.Pairwise (fun x y => le x y = true) →
      (insertSorted le a l).Pairwise (fun x y => le x y = true)
  | [], _ => by simp [insertSorted]
  | b :: bs, h => by
    rw [List.pairwise_cons] at h
    obtain ⟨hb, hbs⟩ := h
    rw [insertSorted]
    by_cases hab : le a b = true
    · rw [if_pos hab, List.pairwise_cons]
      refine ⟨?_, List.pairwise_cons.mpr ⟨hb, hbs⟩⟩
      intro y hy
      rcases List.mem_cons.mp hy with rfl | hy
      · exact hab
      · exact htrans a b y hab (hb y hy)
    · rw [if_neg hab, List.pairwise_cons]
      constructor
      · intro y hy
        rcases (mem_insertSorted le a y bs).mp hy with hya | hy
        · rw [hya]
          rcases htot a b with h1 | h1
          · exact absurd h1 hab
          · exact h1
        · exact hb y hy
      · exact pairwise_insertSorted le htrans htot a bs hbs

theorem pairwise_sortBy {α : Type} (le : α → α → Bool)
    (htrans : ∀ a b c, le a b = true → le b c = true → le a c = true)
    (htot : ∀ a b, le a b = true ∨ le b a = true) :
    ∀ (l : List α), (sortBy le l).Pairwise (fun x y => le x y = true)
  | [] => by simp [sortBy]
  | a :: as =>
    pairwise_insertSorted le htrans htot a (sortBy le as)
      (pairwise_sortBy le htrans htot as)

/-! ### Lemmas about the cleaned rows -/

theorem clean_rows_no_null (df : DataFrame) :
    ∀ r ∈ (clean_dataframe df).1.rows, rowHasNull r = false := by
  intro r hr
  have hr' : r ∈ (dropDuplicates df.rows).filter (fun r => ¬ rowHasNull r) := hr
  rw [List.mem_filter] at hr'
  simpa using hr'.2

theorem clean_rows_sub (df : DataFrame) :
    ∀ r ∈ (clean_dataframe df).1.rows, r ∈ df.rows := by
  intro r hr
  have hr' : r ∈ (dropDuplicates df.rows).filter (fun r => ¬ rowHasNull r) := hr
  rw [List.mem_filter] at hr'
  exact mem_dropDuplicates.mp hr'.1

theorem clean_WF (df : DataFrame) (hwf : df.WF) : (clean_dataframe df).1.WF := by
  intro r hr
  exact hwf r (clean_rows_sub df r hr)

/-! ### Claim theorems -/

/-- C3: for every successfully completed upload, the returned (and
logged) counts satisfy `records_processed + records_failed` equal to the
number of data rows parsed from the CSV before any cleaning or schema
processing. -/
theorem upload_counts_conservation (df : DataFrame) (fn : String)
    (hfn : endsWith fn ".csv" = true) :
    (upload_file fn (.ok df)).response.map
        (fun resp => resp.records_processed + resp.records_failed)
      = .ok (df.rows.length : Int) := by
  rw [upload_file_ok df hfn]
  unfold process_upload
  simp only [Except.map]
  congr 1
  omega

/-- Witness for C3 at a concrete upload. -/
theorem upload_counts_conservation_witness :
    (upload_file "orders.csv"
        (.ok ⟨["OrderID"], [[Cell.str "1"], [Cell.str "2"]]⟩)).response.map
        (fun resp => resp.records_processed + resp.records_failed)
      = .ok (2 : Int) :=
  upload_counts_conservation ⟨["OrderID"], [[Cell.str "1"], [Cell.str "2"]]⟩
    "orders.csv" (by decide)

/-- C5: the cleaner removes exact duplicates first and rows with missing
values second, and the surviving rows equal those obtained by removing
missing-value rows first and duplicates second. -/
theorem clean_order_commutes (df : DataFrame) :
    (clean_dataframe df).1.rows
        = (dropDuplicates df.rows).filter (fun r => ¬ rowHasNull r)
      ∧ (clean_dataframe df).1.rows
        = dropDuplicates (df.rows.filter (fun r => ¬ rowHasNull r)) := by
  refine ⟨rfl, ?_⟩
  exact dropDuplicates_filter _ df.rows

/-- C6: uploads whose filename does not end in `.csv` are rejected with
a 400 client error before any processing, storing no rows and no log
record; filenames ending in `.csv` pass this check. -/
theorem csv_extension_gate (fn : String) (parsed : Except String DataFrame) :
    (endsWith fn ".csv" = false →
      upload_file fn parsed =
        { response := .error ⟨400, "Only CSV files are supported"⟩,
          storedData := [], storedLogs := [] })
    ∧ (endsWith fn ".csv" = true →
      (upload_file fn parsed).response
        ≠ .error ⟨400, "Only CSV files are supported"⟩) := by
  constructor
  · intro h
    unfold upload_file
    rw [if_pos (by simp [h])]
  · intro h
    cases parsed with
    | error e =>
        rw [upload_file_err e h]
        simp [failed_upload]
    | ok df =>
        rw [upload_file_ok df h]
        simp [process_upload]

/-- Witness for C6: a `.txt` upload is rejected without any stored
outcome, and a `.csv` upload passes the extension check. -/
theorem csv_extension_gate_witness :
    (upload_file "report.txt" (.ok ⟨[], []⟩) =
      { response := .error ⟨400, "Only CSV files are supported"⟩,
        storedData := [], storedLogs := [] })
    ∧ (upload_file "report.csv" (.ok ⟨[], []⟩)).response
        ≠ .error ⟨400, "Only CSV files are supported"⟩ :=
  ⟨(csv_extension_gate "report.txt" (.ok ⟨[], []⟩)).1 (by decide),
   (csv_extension_gate "report.csv" (.ok ⟨[], []⟩)).2 (by decide)⟩

/-- C9: when the CSV content fails to decode/parse, the upload catches
the exception, persists a `failed` outcome whose sole diagnostic is the
exception message, and re-raises a 500 server error. -/
theorem parse_failure_failed_outcome (fn msg : String)
    (hfn : endsWith fn ".csv" = true) :
    upload_file fn (.error msg) =
      { response := .error ⟨500, s!"Error processing file: {msg}"⟩,
        storedData := [],
        storedLogs := [{ filename := fn, status := "failed",
                         records_processed := 0, records_failed := 0,
                         errors := [msg] }] } := by
  rw [upload_file_err msg hfn]
  rfl

/-- Witness for C9 at a concrete malformed upload. -/
theorem parse_failure_failed_outcome_witness :
    upload_file "data.csv" (.error "invalid utf-8") =
      { response := .error ⟨500, "Error processing file: invalid utf-8"⟩,
        storedData := [],
        storedLogs := [{ filename := "data.csv", status := "failed",
                         records_processed := 0, records_failed := 0,
                         errors := ["invalid utf-8"] }] } :=
  parse_failure_failed_outcome "data.csv" "invalid utf-8" (by decide)

/-- C7: with zero stored records the analytics overview returns the
minimal empty-state payload with `total_records = 0` and performs no
aggregation, and clearing all data brings a subsequent analytics query
back to that same payload. -/
theorem analytics_empty_state (store : List StoredRecord)
    (h : store.length = 0) :
    (get_analytics_overview store
        = .empty ⟨0, "No data available. Please upload a CSV file first."⟩)
    ∧ ∀ st : StoreState,
        get_analytics_overview (clear_all_data st).1.ecommerce_data
          = .empty ⟨0, "No data available. Please upload a CSV file first."⟩ := by
  constructor
  · unfold get_analytics_overview
    rw [if_pos h]
  · intro st
    rfl

/-- Witness for C7 at the empty store. -/
theorem analytics_empty_state_witness :
    get_analytics_overview []
      = .empty ⟨0, "No data available. Please upload a CSV file first."⟩ :=
  (analytics_empty_state [] (by decide)).1

/-- C10: the cleaner's missing-value diagnostic reports the number of
rows remaining after removal (not the number removed), and is emitted
exactly when the input table contains at least one null cell. -/
theorem missing_values_diagnostic (df : DataFrame) :
    (clean_dataframe df).2
      = (if 0 < df.rows.length - (dropDuplicates df.rows).length then
          [s!"Removed {df.rows.length - (dropDuplicates df.rows).length} duplicate records"]
         else [])
        ++ (if df.rows.any rowHasNull then
          [s!"Removed {(clean_dataframe df).1.rows.length} records with missing values"]
         else []) := by
  have hzero : nullCells ((dropDuplicates df.rows).filter (fun r => ¬ rowHasNull r)) = 0 :=
    nullCells_filter_eq_zero _
  have hany : ((dropDuplicates df.rows).any rowHasNull) = (df.rows.any rowHasNull) := by
    apply Bool.eq_iff_iff.mpr
    simp only [List.any_eq_true]
    constructor
    · rintro ⟨r, hr, hn⟩
      exact ⟨r, mem_dropDuplicates.mp hr, hn⟩
    · rintro ⟨r, hr, hn⟩
      exact ⟨r, mem_dropDuplicates.mpr hr, hn⟩
  have hcond : (0 < nullCells (dropDuplicates df.rows))
      ↔ (df.rows.any rowHasNull = true) := by
    rw [nullCells_pos_iff, hany]
  simp only [clean_dataframe, hzero, Nat.sub_zero, gt_iff_lt, hcond]

/-- C8: on a non-empty store the analytics overview's top-products and
top-customers lists have at most 5 entries each, ranked by summed
revenue descending, and the daily-revenue list has at most 30 entries in
ascending date order. -/
theorem analytics_lists_bounded (store : List StoredRecord) (h : store ≠ []) :
    ∃ st : DataStats, get_analytics_overview store = .full st
      ∧ st.top_products.length ≤ 5
      ∧ st.top_customers.length ≤ 5
      ∧ st.daily_revenue.length ≤ 30
      ∧ st.top_products.Pairwise
          (fun a b => ratLe b.total_revenue a.total_revenue = true)
      ∧ st.top_customers.Pairwise
          (fun a b => ratLe b.total_spent a.total_spent = true)
      ∧ st.daily_revenue.Pairwise (fun a b => strLe a.date b.date = true) := by
  have hlen : ¬ store.length = 0 := by simpa using h
  refine ⟨{ total_records := store.length,
            total_revenue := sumQ (store.map (fun r => toNumD (getField r "total_price"))),
            unique_customers :=
              (dropDuplicates (store.map (fun r => getField r "customer_id"))).length,
            unique_products :=
              (dropDuplicates (store.map (fun r => getField r "product_id"))).length,
            date_range_start := (sortBy strLe (dateStrings store)).head?.getD "",
            date_range_end := (sortBy strLe (dateStrings store)).getLast?.getD "",
            top_products := top_products store,
            top_customers := top_customers store,
            daily_revenue := daily_revenue store }, ?_, ?_, ?_, ?_, ?_, ?_, ?_⟩
  · unfold get_analytics_overview
    rw [if_neg hlen]
  · show (top_products store).length ≤ 5
    simp only [top_products, List.length_take]
    omega
  · show (top_customers store).length ≤ 5
    simp only [top_customers, List.length_take]
    omega
  · show (daily_revenue store).length ≤ 30
    simp only [daily_revenue, List.length_take]
    omega
  · show (top_products store).Pairwise
      (fun a b => ratLe b.total_revenue a.total_revenue = true)
    simp only [top_products]
    refine List.Pairwise.sublist (List.take_sublist _ _)
      (pairwise_sortBy _ ?_ ?_ _)
    · intro a b c h1 h2
      exact ratLe_trans h2 h1
    · intro a b
      exact ratLe_total _ _
  · show (top_customers store).Pairwise
      (fun a b => ratLe b.total_spent a.total_spent = true)
    simp only [top_customers]
    refine List.Pairwise.sublist (List.take_sublist _ _)
      (pairwise_sortBy _ ?_ ?_ _)
    · intro a b c h1 h2
      exact ratLe_trans h2 h1
    · intro a b
      exact ratLe_total _ _
  · show (daily_revenue store).Pairwise (fun a b => strLe a.date b.date = true)
    simp only [daily_revenue]
    refine List.Pairwise.sublist (List.take_sublist _ _)
      (pairwise_sortBy _ ?_ ?_ _)
    · intro a b c h1 h2
      exact strLe_trans h1 h2
    · intro a b
      exact strLe_total _ _

/-- A concrete non-empty store used to witness C8. -/
def storeC8 : List StoredRecord :=
  [[("product_id", Cell.str "A"), ("product_name", Cell.str "Apple"),
    ("quantity", Cell.num 2), ("total_price", Cell.num 6),
    ("customer_id", Cell.str "c1"),
    ("order_date", Cell.str "2023-01-02T00:00:00")]]

/-- Witness for C8 at a concrete one-record store. -/
theorem analytics_lists_bounded_witness :
    ∃ st : DataStats, get_analytics_overview storeC8 = .full st
      ∧ st.top_products.length ≤ 5
      ∧ st.top_customers.length ≤ 5
      ∧ st.daily_revenue.length ≤ 30
      ∧ st.top_products.Pairwise
          (fun a b => ratLe b.total_revenue a.total_revenue = true)
      ∧ st.top_customers.Pairwise
          (fun a b => ratLe b.total_spent a.total_spent = true)
      ∧ st.daily_revenue.Pairwise (fun a b => strLe a.date b.date = true) :=
  analytics_lists_bounded storeC8 (by decide)

/-- A source table whose normalized columns lack the required
`unit_price`. -/
def missingColsDF : DataFrame :=
  ⟨["OrderID", "ProductID", "Quantity"],
   [[Cell.str "1", Cell.str "A", Cell.str "2"]]⟩

/-- C2 counterexample: with a required column absent after
normalization, the upload emits the missing-columns diagnostic and
completes, but it stores the surviving cleaned row rather than zero
rows, and counts zero rows as failed. -/
theorem missing_columns_stores_rows_cex :
    (upload_file "orders.csv" (.ok missingColsDF)).storedData.length = 1
    ∧ (upload_file "orders.csv" (.ok missingColsDF)).storedLogs =
        [{ filename := "orders.csv", status := "completed",
           records_processed := 1, records_failed := 0,
           errors := ["Missing required columns: [unit_price]"] }] := by
  decide

/-- C2 (amended): when a required canonical column is missing after
normalization, the ingestion call still completes without exception and
its diagnostics include a message naming the missing fields, but the
rows surviving cleaning are stored as-is (with normalized column names
and no coercion) rather than zero rows. -/
theorem missing_columns_behavior (df : DataFrame) (fn : String)
    (hfn : endsWith fn ".csv" = true)
    (hmiss : required_columns.filter
        (fun c => ¬ (df.cols.map (fun c => mapColumn (normalizeColName c))).contains c)
      ≠ []) :
    (∃ resp, (upload_file fn (.ok df)).response = .ok resp
      ∧ s!"Missing required columns: {required_columns.filter
            (fun c => ¬ (df.cols.map (fun c => mapColumn (normalizeColName c))).contains c)}"
          ∈ resp.errors)
    ∧ (upload_file fn (.ok df)).storedData.length
        = (clean_dataframe df).1.rows.length := by
  have hmiss' : required_columns.filter
      (fun c => ¬ ((clean_dataframe df).1.cols.map
        (fun c => mapColumn (normalizeColName c))).contains c) ≠ [] := hmiss
  have hstd : standardize_schema (clean_dataframe df).1
      = (⟨df.cols.map (fun c => mapColumn (normalizeColName c)),
          (clean_dataframe df).1.rows⟩,
         [s!"Missing required columns: {required_columns.filter
            (fun c => ¬ (df.cols.map (fun c => mapColumn (normalizeColName c))).contains c)}"]) := by
    simp only [standardize_schema]
    rw [if_pos hmiss']
    rfl
  rw [upload_file_ok df hfn]
  constructor
  · refine ⟨{
        message := "File processed successfully",
        records_processed :=
          ((toRecords (standardize_schema (clean_dataframe df).1).1 fn).length : Int),
        records_failed := (df.rows.length : Int) -
          ((toRecords (standardize_schema (clean_dataframe df).1).1 fn).length : Int),
        errors := (clean_dataframe df).2
          ++ (standardize_schema (clean_dataframe df).1).2 }, rfl, ?_⟩
    rw [hstd]
    simp
  · show (toRecords (standardize_schema (clean_dataframe df).1).1 fn).length
        = (clean_dataframe df).1.rows.length
    rw [hstd]
    simp [toRecords]

/-- Witness for the amended C2 at a concrete table missing
`unit_price`. -/
theorem missing_columns_behavior_witness :
    (upload_file "orders.csv" (.ok missingColsDF)).storedData.length
      = (clean_dataframe missingColsDF).1.rows.length :=
  (missing_columns_behavior missingColsDF "orders.csv" (by decide) (by decide)).2

/-- On a well-formed table with all required columns present after
normalization and no `total_price` column, the coercer appends a
`total_price` column whose value in every row is the product of the
coerced `quantity` and `unit_price` cells. -/
theorem standardize_total_price (d : DataFrame) (hwf : d.WF)
    (hreq : required_columns.filter
        (fun c => ¬ (d.cols.map (fun c => mapColumn (normalizeColName c))).contains c)
      = [])
    (htp : (d.cols.map (fun c => mapColumn (normalizeColName c))).contains "total_price"
      = false) :
    (standardize_schema d).1.cols
        = d.cols.map (fun c => mapColumn (normalizeColName c)) ++ ["total_price"]
    ∧ ∀ r ∈ (standardize_schema d).1.rows,
        getCell (standardize_schema d).1.cols "total_price" r
          = cellMul (getCell (standardize_schema d).1.cols "quantity" r)
                    (getCell (standardize_schema d).1.cols "unit_price" r) := by
  have hnm : ¬ (required_columns.filter
      (fun c => ¬ (d.cols.map (fun c => mapColumn (normalizeColName c))).contains c)
    ≠ []) := fun hc => hc hreq
  have hc2 : ¬ ((d.cols.map (fun c => mapColumn (normalizeColName c))).contains "total_price"
      = true) := by
    intro hc
    rw [htp] at hc
    exact Bool.false_ne_true hc
  have htpmem : "total_price" ∉ d.cols.map (fun c => mapColumn (normalizeColName c)) := by
    intro hmem
    have helem : (d.cols.map (fun c => mapColumn (normalizeColName c))).contains "total_price"
        = true := List.elem_eq_true_of_mem hmem
    exact hc2 helem
  have hcols : (standardize_schema d).1.cols
      = d.cols.map (fun c => mapColumn (normalizeColName c)) ++ ["total_price"] := by
    simp only [standardize_schema]
    rw [if_neg hnm]
    simp only []
    rw [if_neg hc2]
  refine ⟨hcols, ?_⟩
  intro r hr
  rw [hcols]
  simp only [standardize_schema] at hr
  rw [if_neg hnm] at hr
  simp only [] at hr
  rw [if_neg hc2] at hr
  simp only [] at hr
  have hchase : ∀ r2 ∈ ((d.rows.map (fun r =>
      applyAt (d.cols.map (fun c => mapColumn (normalizeColName c))) "quantity" coerceNumericCell r)).map
      (fun r => applyAt (d.cols.map (fun c => mapColumn (normalizeColName c))) "unit_price" coerceNumericCell r)),
      r2.length = (d.cols.map (fun c => mapColumn (normalizeColName c))).length := by
    intro r2 hr2
    obtain ⟨r1, hr1, rfl⟩ := List.mem_map.mp hr2
    obtain ⟨r0, hr0, rfl⟩ := List.mem_map.mp hr1
    have hl0 : r0.length = (d.cols.map (fun c => mapColumn (normalizeColName c))).length := by
      rw [List.length_map]
      exact hwf r0 hr0
    rw [length_applyAt _ _ _ _ (by rw [length_applyAt _ _ _ _ hl0]; exact hl0)]
    rw [length_applyAt _ _ _ _ hl0]
    exact hl0
  by_cases hdate : ((d.cols.map (fun c => mapColumn (normalizeColName c)) ++ ["total_price"]).contains "order_date" = true)
  · rw [if_pos hdate] at hr
    obtain ⟨r3, hr3, rfl⟩ := List.mem_map.mp hr
    obtain ⟨r2, hr2, rfl⟩ := List.mem_map.mp hr3
    have hlen : (d.cols.map (fun c => mapColumn (normalizeColName c))).length = r2.length :=
      (hchase r2 hr2).symm
    rw [getCell_applyAt_ne _ _ _ _ _ (by decide),
        getCell_applyAt_ne _ _ _ _ _ (by decide),
        getCell_applyAt_ne _ _ _ _ _ (by decide),
        getCell_append_last _ _ _ _ hlen htpmem,
        getCell_append_ne _ _ _ _ _ hlen (by decide),
        getCell_append_ne _ _ _ _ _ hlen (by decide)]
  · rw [if_neg hdate] at hr
    obtain ⟨r2, hr2, rfl⟩ := List.mem_map.mp hr
    have hlen : (d.cols.map (fun c => mapColumn (normalizeColName c))).length = r2.length :=
      (hchase r2 hr2).symm
    rw [getCell_append_last _ _ _ _ hlen htpmem,
        getCell_append_ne _ _ _ _ _ hlen (by decide),
        getCell_append_ne _ _ _ _ _ hlen (by decide)]

theorem not_null_of_mem {r : List Cell} (h : rowHasNull r = false) {v : Cell}
    (hv : v ∈ r) : ¬ v = Cell.null := by
  intro hnull
  rw [rowHasNull, List.any_eq_false] at h
  exact h v hv (by simp [hnull])

/-- After schema standardization of a well-formed table whose rows
contain no nulls, every null cell of an output row sits under one of the
coerced or derived columns. -/
theorem standardize_nulls_only_coerced (d : DataFrame) (hwf : d.WF)
    (hclean : ∀ r ∈ d.rows, rowHasNull r = false) :
    ∀ r ∈ (standardize_schema d).1.rows,
      ∀ p ∈ (standardize_schema d).1.cols.zip r,
        p.2 = Cell.null →
          p.1 ∈ ["quantity", "unit_price", "total_price", "order_date"] := by
  intro r hr p hp hnull
  obtain ⟨c, v⟩ := p
  simp only at hnull
  have chase2 : ∀ r2 ∈ ((d.rows.map (fun r =>
      applyAt (d.cols.map (fun c => mapColumn (normalizeColName c))) "quantity" coerceNumericCell r)).map
      (fun r => applyAt (d.cols.map (fun c => mapColumn (normalizeColName c))) "unit_price" coerceNumericCell r)),
      ∀ c v, (c, v) ∈ (d.cols.map (fun c => mapColumn (normalizeColName c))).zip r2 →
        v = Cell.null → c ∈ ["quantity", "unit_price", "total_price", "order_date"] := by
    intro r2 hr2 c v hcv hvnull
    obtain ⟨r1, hr1, rfl⟩ := List.mem_map.mp hr2
    obtain ⟨r0, hr0, rfl⟩ := List.mem_map.mp hr1
    rcases mem_zip_applyAt _ _ _ _ _ _ hcv with hcol | hcv1
    · subst hcol
      simp
    · rcases mem_zip_applyAt _ _ _ _ _ _ hcv1 with hcol | hcv0
      · subst hcol
        simp
      · have hv : v ∈ r0 := (List.of_mem_zip hcv0).2
        exact absurd hvnull (not_null_of_mem (hclean r0 hr0) hv)
  have hlen2 : ∀ r2 ∈ ((d.rows.map (fun r =>
      applyAt (d.cols.map (fun c => mapColumn (normalizeColName c))) "quantity" coerceNumericCell r)).map
      (fun r => applyAt (d.cols.map (fun c => mapColumn (normalizeColName c))) "unit_price" coerceNumericCell r)),
      (d.cols.map (fun c => mapColumn (normalizeColName c))).length = r2.length := by
    intro r2 hr2
    obtain ⟨r1, hr1, rfl⟩ := List.mem_map.mp hr2
    obtain ⟨r0, hr0, rfl⟩ := List.mem_map.mp hr1
    have hl0 : r0.length = (d.cols.map (fun c => mapColumn (normalizeColName c))).length := by
      rw [List.length_map]
      exact hwf r0 hr0
    rw [length_applyAt _ _ _ _ (by rw [length_applyAt _ _ _ _ hl0]; exact hl0)]
    rw [length_applyAt _ _ _ _ hl0]
    exact hl0.symm
  simp only [standardize_schema] at hr hp
  by_cases hm : (required_columns.filter
      (fun c => ¬ (d.cols.map (fun c => mapColumn (normalizeColName c))).contains c) ≠ [])
  · rw [if_pos hm] at hr hp
    simp only [] at hr hp
    have hv : v ∈ r := (List.of_mem_zip hp).2
    exact absurd hnull (not_null_of_mem (hclean r hr) hv)
  · rw [if_neg hm] at hr hp
    simp only [] at hr hp
    by_cases hc2 : ((d.cols.map (fun c => mapColumn (normalizeColName c))).contains "total_price" = true)
    · rw [if_pos hc2] at hr hp
      simp only [] at hr hp
      by_cases hdate : ((d.cols.map (fun c => mapColumn (normalizeColName c))).contains "order_date" = true)
      · rw [if_pos hdate] at hr
        obtain ⟨r2, hr2, rfl⟩ := List.mem_map.mp hr
        rcases mem_zip_applyAt _ _ _ _ _ _ hp with hcol | hp2
        · subst hcol
          simp
        · exact chase2 r2 hr2 c v hp2 hnull
      · rw [if_neg hdate] at hr
        exact chase2 r hr c v hp hnull
    · rw [if_neg hc2] at hr hp
      simp only [] at hr hp
      by_cases hdate : (((d.cols.map (fun c => mapColumn (normalizeColName c))) ++ ["total_price"]).contains "order_date" = true)
      · rw [if_pos hdate] at hr
        obtain ⟨r3, hr3, rfl⟩ := List.mem_map.mp hr
        obtain ⟨r2, hr2, rfl⟩ := List.mem_map.mp hr3
        rcases mem_zip_applyAt _ _ _ _ _ _ hp with hcol | hp2
        · subst hcol
          simp
        · rw [List.zip_append (hlen2 r2 hr2)] at hp2
          rcases List.mem_append.mp hp2 with hp3 | hp3
          · exact chase2 r2 hr2 c v hp3 hnull
          · have := List.mem_singleton.mp hp3
            have hc : c = "total_price" := congrArg Prod.fst this
            subst hc
            simp
      · rw [if_neg hdate] at hr
        obtain ⟨r2, hr2, rfl⟩ := List.mem_map.mp hr
        rw [List.zip_append (hlen2 r2 hr2)] at hp
        rcases List.mem_append.mp hp with hp3 | hp3
        · exact chase2 r2 hr2 c v hp3 hnull
        · have := List.mem_singleton.mp hp3
          have hc : c = "total_price" := congrArg Prod.fst this
          subst hc
          simp

/-- C4: for records stored from a source that did not supply a
`total_price` column (so the canonical column is absent after
normalization), the coercer appends `total_price` and every stored
record's `total_price` equals `quantity * unit_price`. -/
theorem total_price_consistency (df : DataFrame) (fn : String)
    (hwf : df.WF) (hfn : endsWith fn ".csv" = true)
    (hreq : required_columns.filter
        (fun c => ¬ (df.cols.map (fun c => mapColumn (normalizeColName c))).contains c)
      = [])
    (htp : (df.cols.map (fun c => mapColumn (normalizeColName c))).contains "total_price"
      = false) :
    (standardize_schema (clean_dataframe df).1).1.cols
        = df.cols.map (fun c => mapColumn (normalizeColName c)) ++ ["total_price"]
    ∧ ∀ rec ∈ (upload_file fn (.ok df)).storedData,
        getField rec "total_price"
          = cellMul (getField rec "quantity") (getField rec "unit_price") := by
  have hkey := standardize_total_price (clean_dataframe df).1 (clean_WF df hwf) hreq htp
  refine ⟨hkey.1, ?_⟩
  intro rec hrec
  rw [upload_file_ok df hfn] at hrec
  obtain ⟨r, hr, rfl⟩ := List.mem_map.mp
    (show rec ∈ toRecords (standardize_schema (clean_dataframe df).1).1 fn from hrec)
  rw [getField_record _ _ _ _ (by decide),
      getField_record _ _ _ _ (by decide),
      getField_record _ _ _ _ (by decide),
      ← serializeCell_cellMul]
  exact congrArg serializeCell (hkey.2 r hr)

/-- A well-formed source table without a `total_price` column, used to
witness C4. -/
def goodDF : DataFrame :=
  ⟨["OrderID", "ProductID", "Quantity", "UnitPrice"],
   [[Cell.str "1", Cell.str "A", Cell.str "2", Cell.str "3"]]⟩

/-- Witness for C4 at a concrete upload. -/
theorem total_price_consistency_witness :
    (standardize_schema (clean_dataframe goodDF).1).1.cols
      = goodDF.cols.map (fun c => mapColumn (normalizeColName c)) ++ ["total_price"] :=
  (total_price_consistency goodDF "orders.csv"
    (by decide) (by decide) (by decide) (by decide)).1

/-- A source table whose `quantity` value fails numeric parsing. -/
def badQuantityDF : DataFrame :=
  ⟨["OrderID", "ProductID", "Quantity", "UnitPrice"],
   [[Cell.str "1", Cell.str "A", Cell.str "abc", Cell.str "3"]]⟩

/-- C1 counterexample: a row with an unparseable `quantity` survives the
cleaner (it has no nulls at that point), coercion turns the value into
null, and the upload completes having stored a record that contains null
cells — so the no-null invariant does not cover nulls introduced during
coercion. -/
theorem coercion_null_stored_cex :
    ((upload_file "orders.csv" (.ok badQuantityDF)).storedData.any
      (fun rec => rec.any (fun q => q.2 = Cell.null))) = true
    ∧ ((upload_file "orders.csv" (.ok badQuantityDF)).storedLogs.map
        (fun lg => lg.status)) = ["completed"] := by
  decide

/-- C1 (amended): rows with a missing cell at cleaning time never reach
the store; every null in a stored record of a completed upload sits in
one of the columns written by the coercion stage (`quantity`,
`unit_price`, the derived `total_price`, or `order_date`). -/
theorem stored_nulls_only_in_coerced_columns (df : DataFrame) (fn : String)
    (hwf : df.WF) (hfn : endsWith fn ".csv" = true) :
    ∀ rec ∈ (upload_file fn (.ok df)).storedData, ∀ p ∈ rec,
      p.2 = Cell.null →
        p.1 ∈ ["quantity", "unit_price", "total_price", "order_date"] := by
  intro rec hrec p hp hnull
  rw [upload_file_ok df hfn] at hrec
  obtain ⟨r, hr, rfl⟩ := List.mem_map.mp
    (show rec ∈ toRecords (standardize_schema (clean_dataframe df).1).1 fn from hrec)
  rcases List.mem_append.mp hp with hp1 | hp2
  · obtain ⟨q, hq, rfl⟩ := List.mem_map.mp hp1
    simp only at hnull
    have hq2 : q.2 = Cell.null := serializeCell_eq_null.mp hnull
    have := standardize_nulls_only_coerced (clean_dataframe df).1
      (clean_WF df hwf) (clean_rows_no_null df) r hr q hq hq2
    simpa using this
  · obtain rfl := List.mem_singleton.mp hp2
    simp at hnull

/-- The record stored for `badQuantityDF`, with its coercion-introduced
nulls. -/
def badQuantityRec : StoredRecord :=
  [("order_id", Cell.str "1"), ("product_id", Cell.str "A"),
   ("quantity", Cell.null), ("unit_price", Cell.num 3),
   ("total_price", Cell.null), ("source_file", Cell.str "orders.csv")]

/-- Witness for the amended C1: the null `quantity` cell of the stored
record lies in a coerced column. -/
theorem stored_nulls_only_in_coerced_columns_witness :
    ("quantity" : String) ∈ ["quantity", "unit_price", "total_price", "order_date"] :=
  stored_nulls_only_in_coerced_columns badQuantityDF "orders.csv"
    (by decide) (by decide) badQuantityRec (by decide)
    ("quantity", Cell.null) (by decide) rfl

end EcommercePipeline
